import Mathlib

/-!
Verification development for the ezzo-sales quotation system.

The repository's algorithmic core splits into two parts:

* the admin-side `BranchingEditor` React component (decision-tree authoring),
  whose pure state-transition logic is embedded below from
  `src/frontend/src/components/BranchingEditor.jsx` (served in the source
  tree as `src/frontend/src/hooks/useAuth.js` after the auth store), and

* the backend Guided Question Decision Engine and Quote Calculation Engine
  (TraversalEngine, AdjustmentPipeline, QuoteBuilder), which are FastAPI
  backend code not present under `src/`; those definitions are modelled
  from the specification and are marked `Modelled from the spec:` in their
  doc comments.
-/

namespace EzzoSales

/-! ## JavaScript string primitives used by the editor -/

/-- Whitespace test used to model JavaScript `String.prototype.trim`:
the JS WhiteSpace production restricted to its common members
(space, tab, line feed, carriage return, vertical tab, form feed,
no-break space). -/
def isJsWhitespace (c : Char) : Bool :=
  c == ' ' || c == '\t' || c == '\n' || c == '\r' ||
  c == '\x0B' || c == '\x0C' || c == '\xA0'

/-- Model of JavaScript `value.split(',')` on the character list of the
string: splits at every comma, keeping empty pieces (so the empty string
splits to one empty piece, matching JS). -/
def splitComma : List Char → List (List Char)
  | [] => [[]]
  | c :: rest =>
    let r := splitComma rest
    if c == ',' then [] :: r
    else
      match r with
      | [] => [[c]]
      | piece :: pieces => (c :: piece) :: pieces

/-- Left half of JS `trim`: drop leading whitespace. -/
def trimLeft (l : List Char) : List Char :=
  l.dropWhile isJsWhitespace

/-- Right half of JS `trim`: drop trailing whitespace. -/
def trimRight (l : List Char) : List Char :=
  (l.reverse.dropWhile isJsWhitespace).reverse

/-- Model of JavaScript `String.prototype.trim` on character lists:
remove leading and trailing whitespace, preserving the interior. -/
def jsTrim (l : List Char) : List Char :=
  trimRight (trimLeft l)

/-! ## BranchingEditor data model (from the source) -/

/-- Question record manipulated by the `BranchingEditor` component
(`addQuestion` creates `{id, question, type, required, choices, next}`).
`next` is the transitions mapping from answer value to target question id;
it is optional because the component guards `if (q.next)`. -/
structure EQuestion where
  id : String
  question : String
  qtype : String
  required : Bool
  choices : List String
  next : Option (List (String × String))
deriving DecidableEq

/-- The question-list part of `deleteQuestion` in `BranchingEditor`:
`questions.filter(q => q.id !== questionId).map(...)` where the map
removes from each surviving question's `next` every key whose target
equals the deleted id (and leaves questions without a `next` object
untouched). -/
def cleanupNext (questionId : String) (q : EQuestion) : EQuestion :=
  match q.next with
  | some nx => { q with next := some (nx.filter (fun kv => kv.2 != questionId)) }
  | none => q

/-- Question list produced by `deleteQuestion(questionId)` from the list
`questions` held in component state. -/
def deleteQuestionList (questions : List EQuestion) (questionId : String) :
    List EQuestion :=
  (questions.filter (fun q => q.id != questionId)).map (cleanupNext questionId)

/-- The start-question part of `deleteQuestion`: the source runs
`if (startQuestion === questionId) setStartQuestion(questions[0]?.id || null)`
where `questions` is the component state captured at call time, i.e. the
list BEFORE the deletion filter is applied (a stale-closure read).
The `|| null` makes an empty-string id fall back to null. -/
def deleteQuestionStart (questions : List EQuestion)
    (startQuestion : Option String) (questionId : String) : Option String :=
  if startQuestion = some questionId then
    match questions.head? with
    | some q0 => if q0.id = "" then none else some q0.id
    | none => none
  else startQuestion

/-- Start question emitted to the parent by the editor's `onChange` effect:
`start_question: startQuestion || (questions.length > 0 ? questions[0].id : null)`.
A falsy `startQuestion` (null or empty string) falls back to the first
question's id. -/
def emittedStart (questions : List EQuestion) (startQuestion : Option String) :
    Option String :=
  let fallback : Option String :=
    match questions.head? with
    | some q0 => some q0.id
    | none => none
  match startQuestion with
  | some s => if s = "" then fallback else some s
  | none => fallback

/-- The editor's `getAnswerOptions`: choices for a choice question,
the two boolean literals for a boolean question, and the single reserved
key `"default"` otherwise. -/
def getAnswerOptions (question : EQuestion) : List String :=
  if question.qtype = "choice" then question.choices
  else if question.qtype = "boolean" then ["true", "false"]
  else ["default"]

/-- The `answerOptions` conditional expression at the top of the
`QuestionNode` component, which renders one connectable answer slot per
option; textually separate from `getAnswerOptions` in the source but the
same dispatch. -/
def questionNodeAnswerOptions (question : EQuestion) : List String :=
  if question.qtype = "choice" then question.choices
  else if question.qtype = "boolean" then ["true", "false"]
  else ["default"]

/-- The choices parser of the editor's choices textarea:
`value.split(',').map(choice => choice.trim()).filter(Boolean)`.
`filter(Boolean)` drops exactly the empty strings. -/
def parsedChoices (value : List Char) : List (List Char) :=
  (((splitComma value).map jsTrim)).filter (fun s => !s.isEmpty)

/-! ## Guided Question Decision Engine (modelled from the spec) -/

/-- Modelled from the spec: the four answer types of a Question
(section 3 data model); the TraversalEngine implementing them is backend
code not present under `src/`. -/
inductive AnswerType
  | text
  | number
  | choice
  | boolean
deriving DecidableEq

/-- Modelled from the spec: a Question of the QuestionGraph (section 3):
id, prompt, answerType, required flag, choices (choice type only) and the
transitions mapping from answer-key to next question id. -/
structure Question where
  id : String
  prompt : String
  answerType : AnswerType
  required : Bool
  choices : List String
  transitions : List (String × String)
deriving DecidableEq

/-- Modelled from the spec: a QuestionGraph: questions plus the start id. -/
structure QuestionGraph where
  questions : List Question
  startId : String
deriving DecidableEq

/-- Look up a question of the graph by id. -/
def QuestionGraph.findQuestion (g : QuestionGraph) (qid : String) : Option Question :=
  g.questions.find? (fun q => q.id == qid)

/-- Modelled from the spec: one AnswerStore entry
`{questionId, rawAnswer, normalizedAnswer, timestamp}` (section 3). -/
structure AnswerEntry where
  questionId : String
  rawAnswer : String
  normalizedAnswer : String
  timestamp : Nat
deriving DecidableEq

/-- Modelled from the spec: the append-only, session-scoped AnswerStore. -/
structure AnswerStore where
  entries : List AnswerEntry
deriving DecidableEq

/-- Question ids already answered in this session, in order. -/
def answeredIds (store : AnswerStore) : List String :=
  store.entries.map (fun e => e.questionId)

/-- Modelled from the spec: the TraversalEngine state machine has exactly
the states AwaitingAnswer(question) and Done (section 4.1). -/
inductive TraversalState
  | awaiting (q : Question)
  | done
deriving DecidableEq

/-- Modelled from the spec: the ValidationError taxonomy of section 4.1,
plus the hard validation error demanded by section 3 for a traversal that
revisits an already-answered question. -/
inductive ValidationError
  | missingRequiredAnswer
  | invalidChoice
  | unparsableNumber
  | unknownQuestionId
  | revisitedQuestion
deriving DecidableEq

/-- Fold a digit list into a natural number (callers check digits). -/
def digitCharsToNat (cs : List Char) : Nat :=
  cs.foldl (fun acc c => acc * 10 + (c.toNat - 48)) 0

/-- Modelled from the spec: parse an unsigned decimal numeral
`digits` or `digits.digits` into an exact rational. -/
def parseUnsignedDecimal (cs : List Char) : Option ℚ :=
  let intPart := cs.takeWhile (fun c => c != '.')
  let rest := cs.dropWhile (fun c => c != '.')
  match rest with
  | [] =>
    if intPart ≠ [] ∧ intPart.all Char.isDigit then
      some ((digitCharsToNat intPart : ℚ))
    else none
  | _ :: fracPart =>
    if intPart ≠ [] ∧ intPart.all Char.isDigit ∧
        fracPart ≠ [] ∧ fracPart.all Char.isDigit then
      some ((digitCharsToNat intPart : ℚ) +
        (digitCharsToNat fracPart : ℚ) / (10 : ℚ) ^ fracPart.length)
    else none

/-- Modelled from the spec: "for `number` it must parse as a decimal"
(section 4.1); an optional leading minus sign is accepted. -/
def parseDecimal (s : String) : Option ℚ :=
  match s.data with
  | '-' :: rest => (parseUnsignedDecimal rest).map (fun q => -q)
  | cs => parseUnsignedDecimal cs

/-- Modelled from the spec: answer validation and normalization of
section 4.1. A choice answer must equal one of `choices` exactly
(case-sensitive, no normalization); a boolean answer must normalize to
`"true"`/`"false"`; a number must parse as a decimal; a required text or
number answer must be non-empty (MissingRequiredAnswer). On success the
normalized answer is returned. -/
def validateAnswer (q : Question) (raw : String) : Except ValidationError String :=
  match q.answerType with
  | .choice =>
    if raw ∈ q.choices then .ok raw else .error .invalidChoice
  | .boolean =>
    if raw.toLower = "true" then .ok "true"
    else if raw.toLower = "false" then .ok "false"
    else .error .invalidChoice
  | .number =>
    if q.required ∧ raw = "" then .error .missingRequiredAnswer
    else
      match parseDecimal raw with
      | some _ => .ok raw
      | none => .error .unparsableNumber
  | .text =>
    if q.required ∧ raw = "" then .error .missingRequiredAnswer
    else .ok raw

/-- Modelled from the spec: "look up `transitions[normalizedAnswer]`;
if absent, fall back to `transitions["default"]`" (section 4.1). -/
def nextQuestionId (q : Question) (norm : String) : Option String :=
  match q.transitions.lookup norm with
  | some t => some t
  | none => q.transitions.lookup "default"

/-- Modelled from the spec: `submitAnswer` of the TraversalEngine
(section 4.1). Validation errors are returned without touching the store;
a valid answer is appended; an absent transition (after the `"default"`
fallback) terminates the branch with state Done as a SUCCESS; a transition
into an already-answered question is the hard validation error of
section 3; a transition target missing from the graph is
UnknownQuestionId. -/
def submitAnswer (g : QuestionGraph) (q : Question) (store : AnswerStore)
    (raw : String) (ts : Nat) : Except ValidationError (AnswerStore × TraversalState) :=
  match validateAnswer q raw with
  | .error e => .error e
  | .ok norm =>
    let store' : AnswerStore := ⟨store.entries ++ [⟨q.id, raw, norm, ts⟩]⟩
    match nextQuestionId q norm with
    | none => .ok (store', .done)
    | some nid =>
      if nid ∈ answeredIds store' then .error .revisitedQuestion
      else
        match g.findQuestion nid with
        | none => .error .unknownQuestionId
        | some q' => .ok (store', .awaiting q')

/-! ## Quote Calculation Engine (modelled from the spec) -/

/-- Modelled from the spec: a PriceEntry consumed from the catalog
(section 3). Monetary values use exact rationals (the spec mandates a
fixed-point decimal, never binary floating point). `sourceDocumentId` is
a natural number whose order is ingestion order: a numerically larger id
was ingested more recently. -/
structure PriceEntry where
  itemName : String
  unitPrice : ℚ
  unit : String
  conditions : List String
  sourceDocumentId : Nat
deriving DecidableEq

/-- Modelled from the spec: keep the better of two candidate entries under
the highest-price rule with the most-recent-ingestion secondary tie-break
(section 4.3). -/
def preferEntry (best e : PriceEntry) : PriceEntry :=
  if best.unitPrice < e.unitPrice ∨
      (best.unitPrice = e.unitPrice ∧ best.sourceDocumentId < e.sourceDocumentId) then
    e
  else best

/-- Modelled from the spec: select from the catalog results the entry with
the maximum `unitPrice`, breaking exact price ties by the most recent
`sourceDocumentId` ingestion; none when the set is empty. -/
def selectHighest : List PriceEntry → Option PriceEntry
  | [] => none
  | e :: rest => some (rest.foldl preferEntry e)

/-- Modelled from the spec: the two adjustment kinds of section 3. -/
inductive AdjustmentKind
  | fixedAmount
  | percentageOfBase
deriving DecidableEq

/-- Modelled from the spec: an Adjustment (section 3): description, kind,
value, a pure predicate over the collected answers, and the per-adjustment
compounding flag of sections 4.2 and 9, defaulting to non-compounding. -/
structure Adjustment where
  description : String
  kind : AdjustmentKind
  value : ℚ
  appliesWhen : List (String × String) → Bool
  compounding : Bool := false

/-- Modelled from the spec: the contribution of one matched adjustment:
`value` for fixedAmount; `value/100 *` the original base price for a
non-compounding percentageOfBase, or the running total when the
adjustment is explicitly declared compounding (section 4.2). -/
def adjustmentAmount (basePrice total : ℚ) (a : Adjustment) : ℚ :=
  match a.kind with
  | .fixedAmount => a.value
  | .percentageOfBase => a.value / 100 * (if a.compounding then total else basePrice)

/-- Modelled from the spec: the iteration of AdjustmentPipeline.apply:
walk the adjustments in declared order, and for each whose `appliesWhen`
holds of the answers, append `(description, amount)` and accumulate the
amount into the running total. -/
def applyGo (basePrice : ℚ) (answers : List (String × String)) :
    ℚ → List (String × ℚ) → List Adjustment → ℚ × List (String × ℚ)
  | total, applied, [] => (total, applied)
  | total, applied, a :: rest =>
    if a.appliesWhen answers then
      applyGo basePrice answers (total + adjustmentAmount basePrice total a)
        (applied ++ [(a.description, adjustmentAmount basePrice total a)]) rest
    else
      applyGo basePrice answers total applied rest

namespace AdjustmentPipeline

/-- Modelled from the spec: `apply(basePrice, answers, adjustments) ->
(total, appliedAdjustments)` with the total initialized to `basePrice`
(section 4.2). -/
def apply (basePrice : ℚ) (answers : List (String × String))
    (adjustments : List Adjustment) : ℚ × List (String × ℚ) :=
  applyGo basePrice answers basePrice [] adjustments

end AdjustmentPipeline

/-- The matched adjustments, in declared order. -/
def matchingAdjustments (answers : List (String × String))
    (adjustments : List Adjustment) : List Adjustment :=
  adjustments.filter (fun a => a.appliesWhen answers)

/-- Contribution of an adjustment computed against the original base
price (the non-compounding reading of section 4.2). -/
def contributionAt (basePrice : ℚ) (a : Adjustment) : ℚ :=
  match a.kind with
  | .fixedAmount => a.value
  | .percentageOfBase => a.value / 100 * basePrice

/-- Modelled from the spec: the Quote record of section 3. -/
structure Quote where
  itemName : String
  quantity : ℚ
  unit : String
  basePrice : ℚ
  adjustments : List (String × ℚ)
  totalPrice : ℚ
  conditions : List String
  sourceTrace : List Nat

/-- Modelled from the spec: the catalog failure of QuoteBuilder when no
price entry matches (section 4.3). -/
inductive CatalogError
  | noPriceFound
deriving DecidableEq

/-- De-duplicated union in first-seen order (section 3 `conditions`). -/
def dedupUnion (xs : List String) : List String :=
  xs.foldl (fun acc c => if c ∈ acc then acc else acc ++ [c]) []

namespace QuoteBuilder

/-- Modelled from the spec: `build(finalizedAnswers, catalogResults,
adjustments) -> Quote` (section 4.3). Selects the catalog entry per the
highest-price rule (empty set fails with NoPriceFound), takes
`basePrice = unitPrice * quantity` with the quantity from the finalized
answers, runs the AdjustmentPipeline, and records the selected entry's
conditions (de-duplicated, first-seen order) and source document in the
trace. -/
def build (finalizedAnswers : List (String × String)) (quantity : ℚ)
    (catalogResults : List PriceEntry) (adjustments : List Adjustment) :
    Except CatalogError Quote :=
  match selectHighest catalogResults with
  | none => .error .noPriceFound
  | some e =>
    let basePrice := e.unitPrice * quantity
    let result := AdjustmentPipeline.apply basePrice finalizedAnswers adjustments
    .ok { itemName := e.itemName
          quantity := quantity
          unit := e.unit
          basePrice := basePrice
          adjustments := result.2
          totalPrice := result.1
          conditions := dedupUnion e.conditions
          sourceTrace := [e.sourceDocumentId] }

end QuoteBuilder

/-- Modelled from the spec: the order in which one candidate entry is at
least as good as another under the highest-price rule: strictly higher
unit price, or an exact price tie with an ingestion at least as recent. -/
def priceLe (x y : PriceEntry) : Prop :=
  x.unitPrice < y.unitPrice ∨
    (x.unitPrice = y.unitPrice ∧ x.sourceDocumentId ≤ y.sourceDocumentId)

/-! ## Concrete instances used by the theorems and witnesses below -/

/-- Two catalog entries for the same query with unit prices 1200 and 1350
(the spec's selection scenario); the 1350 entry was ingested later. -/
def c1Entries : List PriceEntry :=
  [⟨"court resurfacing", 1200, "sqm", ["access required"], 1⟩,
   ⟨"court resurfacing", 1350, "sqm", [], 2⟩]

/-- The oil-based varnish +15% adjustment of the spec's pricing scenario;
it applies when the collected answers say `varnish_type = oil`, and is
non-compounding by default. -/
def oilVarnishAdjustment : Adjustment where
  description := "oil-based varnish"
  kind := .percentageOfBase
  value := 15
  appliesWhen := fun answers => answers.lookup "varnish_type" == some "oil"

/-- The collected answers of the spec's pricing scenario. -/
def scenarioAnswers : List (String × String) := [("varnish_type", "oil")]

/-- A choice question with a transition only for `"Basketball"`. -/
def c3Question : Question where
  id := "court_type"
  prompt := "Which court?"
  answerType := .choice
  required := true
  choices := ["Basketball", "Pickleball", "Tennis"]
  transitions := [("Basketball", "full_half")]

/-- A one-question graph around `c3Question`. -/
def c3Graph : QuestionGraph where
  questions := [c3Question]
  startId := "court_type"

/-- Editor state for the start-question deletion bug: two questions, with
the first one set as the start question. -/
def c4Questions : List EQuestion :=
  [⟨"qA", "First question", "text", true, [], some []⟩,
   ⟨"qB", "Second question", "text", true, [], some []⟩]

/-- A boolean question of the editor data model. -/
def c5Question : EQuestion :=
  ⟨"q1", "Need varnish?", "boolean", true, [], none⟩

/-- The spec's misspelled-choice scenario question. -/
def c6Question : Question where
  id := "sport"
  prompt := "Which sport?"
  answerType := .choice
  required := true
  choices := ["Basketball", "Tennis"]
  transitions := []

/-- A one-question graph around `c6Question`. -/
def c6Graph : QuestionGraph where
  questions := [c6Question]
  startId := "sport"

/-- A text question whose `"default"` transition loops back to itself. -/
def c7Question : Question where
  id := "material"
  prompt := "Which material?"
  answerType := .text
  required := false
  choices := []
  transitions := [("default", "material")]

/-- A one-question graph around `c7Question`. -/
def c7Graph : QuestionGraph where
  questions := [c7Question]
  startId := "material"

/-- A store in which `material` has already been answered. -/
def c7Store : AnswerStore := ⟨[⟨"material", "steel", "steel", 0⟩]⟩

/-- Editor questions with cross references, used to exercise deletion
cleanup: both questions point at each other. -/
def c9Questions : List EQuestion :=
  [⟨"a", "A", "text", true, [], some [("default", "b"), ("x", "c")]⟩,
   ⟨"b", "B", "text", true, [], some [("default", "a")]⟩]

/-- A concrete choices-textarea input with leading, trailing and interior
spaces and an empty piece. -/
def c10Value : List Char :=
  " Stainless Steel (SS304), Galvanized Mild Steel (HDG) ,, Aluminum ".data

/-! ## Theorems -/

/-- C5: for every question, the keys the editor permits in its transitions
mapping are determined by its answerType: the `QuestionNode` answer slots
agree with `getAnswerOptions`, and every offered key satisfies the spec's
rule — for choice questions every key other than the reserved `"default"`
equals one of the choices exactly; for boolean questions the keys are
drawn from `"true"`/`"false"`; for text or number questions the only
permitted key is `"default"`. -/
theorem answerOptions_permitted (q : EQuestion) :
    questionNodeAnswerOptions q = getAnswerOptions q ∧
    ∀ k ∈ getAnswerOptions q,
      (q.qtype = "choice" → k ≠ "default" → k ∈ q.choices) ∧
      (q.qtype = "boolean" → (k = "true" ∨ k = "false")) ∧
      ((q.qtype = "text" ∨ q.qtype = "number") → k = "default") := by
  refine ⟨rfl, ?_⟩
  intro k hk
  unfold getAnswerOptions at hk
  by_cases hc : q.qtype = "choice"
  · rw [if_pos hc] at hk
    refine ⟨fun _ _ => hk, fun hb => absurd (hc.symm.trans hb) (by decide), fun ht => ?_⟩
    rcases ht with ht | ht
    · exact absurd (hc.symm.trans ht) (by decide)
    · exact absurd (hc.symm.trans ht) (by decide)
  · rw [if_neg hc] at hk
    by_cases hb : q.qtype = "boolean"
    · rw [if_pos hb] at hk
      have hk2 : k = "true" ∨ k = "false" := by simpa using hk
      refine ⟨fun h => absurd h hc, fun _ => hk2, fun ht => ?_⟩
      rcases ht with ht | ht
      · exact absurd (hb.symm.trans ht) (by decide)
      · exact absurd (hb.symm.trans ht) (by decide)
    · rw [if_neg hb] at hk
      have hk' : k = "default" := by simpa using hk
      subst hk'
      exact ⟨fun h => absurd h hc, fun h => absurd h hb, fun _ => rfl⟩

/-- Witness for C5: a concrete boolean question offers the key `"true"`,
which is drawn from the boolean literals. -/
theorem answerOptions_permitted_witness : "true" = "true" ∨ "true" = "false" :=
  ((answerOptions_permitted c5Question).2 "true" (by decide)).2.1 rfl

/-- C9: for every editor tree state and question id, after
`deleteQuestion` the question list no longer contains that id, and no
surviving question's `next` mapping has any key whose target equals the
deleted id — deletion never leaves a dangling transition reference. -/
theorem deleteQuestion_no_dangling (questions : List EQuestion) (questionId : String) :
    ∀ q ∈ deleteQuestionList questions questionId,
      q.id ≠ questionId ∧
      ∀ nx, q.next = some nx → ∀ kv ∈ nx, kv.2 ≠ questionId := by
  intro q hq
  unfold deleteQuestionList at hq
  rcases List.mem_map.mp hq with ⟨q₀, hq₀, rfl⟩
  have hid : q₀.id ≠ questionId := by
    have h := (List.mem_filter.mp hq₀).2
    simpa using h
  constructor
  · cases h : q₀.next <;> simp [cleanupNext, h, hid]
  · intro nx hnx kv hkv
    cases h : q₀.next with
    | none =>
      rw [cleanupNext, h] at hnx
      rw [h] at hnx
      exact absurd hnx (by simp)
    | some nx₀ =>
      rw [cleanupNext, h] at hnx
      simp only [Option.some.injEq] at hnx
      subst hnx
      have h2 := (List.mem_filter.mp hkv).2
      simpa using h2

/-- Witness for C9: deleting question `"b"` from the concrete two-question
state leaves the cleaned first question, whose id differs from `"b"`. -/
theorem deleteQuestion_no_dangling_witness :
    (cleanupNext "b" ⟨"a", "A", "text", true, [], some [("default", "b"), ("x", "c")]⟩).id ≠ "b" :=
  (deleteQuestion_no_dangling c9Questions "b"
    (cleanupNext "b" ⟨"a", "A", "text", true, [], some [("default", "b"), ("x", "c")]⟩)
    (by decide)).1

/-- C4: the claim fails on the code. Deleting the current start question
when it is the FIRST question in the list reassigns the start from the
stale pre-deletion list (`questions[0]?.id`), which is the id of the very
question being deleted; the configuration the editor then emits has a
`start_question` that references no existing question. This theorem
evaluates the editor model at that failing input: state `[qA, qB]` with
start `qA`, deleting `qA`. -/
theorem deleteQuestion_start_dangling :
    deleteQuestionStart c4Questions (some "qA") "qA" = some "qA" ∧
    (deleteQuestionList c4Questions "qA").map EQuestion.id = ["qB"] ∧
    emittedStart (deleteQuestionList c4Questions "qA")
      (deleteQuestionStart c4Questions (some "qA") "qA") = some "qA" := by
  decide

/-- Helper: the head of a dropWhile result does not satisfy the dropped
predicate. -/
theorem dropWhile_head_false {p : Char → Bool} :
    ∀ {l : List Char} {c : Char}, (l.dropWhile p).head? = some c → p c = false := by
  intro l
  induction l with
  | nil => intro c h; simp [List.dropWhile] at h
  | cons a t ih =>
    intro c h
    rw [List.dropWhile_cons] at h
    by_cases hpa : p a
    · rw [if_pos hpa] at h
      exact ih h
    · rw [if_neg hpa] at h
      simp only [List.head?_cons, Option.some.injEq] at h
      subst h
      simpa using hpa

/-- Helper: dropWhile is the identity when the head does not satisfy the
predicate. -/
theorem dropWhile_eq_self_of_head {p : Char → Bool} {l : List Char}
    (h : ∀ c, l.head? = some c → p c = false) : l.dropWhile p = l := by
  cases l with
  | nil => rfl
  | cons a t =>
    have ha := h a rfl
    simp [List.dropWhile_cons, ha]

/-- Helper: every list splits as its right-trimmed part followed by its
trailing whitespace. -/
theorem reverse_ws_split (A : List Char) :
    A = trimRight A ++ (A.reverse.takeWhile isJsWhitespace).reverse := by
  unfold trimRight
  have h := List.takeWhile_append_dropWhile (p := isJsWhitespace) (l := A.reverse)
  calc A = A.reverse.reverse := (List.reverse_reverse A).symm
    _ = (A.reverse.takeWhile isJsWhitespace ++ A.reverse.dropWhile isJsWhitespace).reverse := by
        rw [h]
    _ = (A.reverse.dropWhile isJsWhitespace).reverse ++
          (A.reverse.takeWhile isJsWhitespace).reverse := by
        rw [List.reverse_append]

/-- Helper: the left-trimmed part splits as the fully trimmed part
followed by the trailing whitespace. -/
theorem trimLeft_decomp (l : List Char) :
    trimLeft l = jsTrim l ++ ((trimLeft l).reverse.takeWhile isJsWhitespace).reverse := by
  unfold jsTrim
  exact reverse_ws_split (trimLeft l)

/-- Helper: a string splits as leading whitespace, its trim, and trailing
whitespace — trimming removes nothing from the interior. -/
theorem jsTrim_decomp (l : List Char) :
    l = l.takeWhile isJsWhitespace ++ jsTrim l ++
      ((trimLeft l).reverse.takeWhile isJsWhitespace).reverse := by
  conv_lhs => rw [← List.takeWhile_append_dropWhile (p := isJsWhitespace) (l := l)]
  rw [List.append_assoc]
  congr 1
  exact trimLeft_decomp l

/-- Helper: the first character of a trimmed string is not whitespace. -/
theorem jsTrim_head_false {l : List Char} {c : Char}
    (h : (jsTrim l).head? = some c) : isJsWhitespace c = false := by
  rcases hj : jsTrim l with _ | ⟨c0, rest⟩
  · rw [hj] at h
    simp at h
  · rw [hj] at h
    simp only [List.head?_cons, Option.some.injEq] at h
    subst h
    have hhead : (trimLeft l).head? = some c0 := by
      rw [trimLeft_decomp l, hj]
      simp
    exact dropWhile_head_false (p := isJsWhitespace) hhead

/-- Helper: the last character of a trimmed string is not whitespace. -/
theorem jsTrim_getLast_false {l : List Char} {c : Char}
    (h : (jsTrim l).getLast? = some c) : isJsWhitespace c = false := by
  have h' : (((trimLeft l).reverse.dropWhile isJsWhitespace).reverse).getLast? = some c := h
  rw [List.getLast?_reverse] at h'
  exact dropWhile_head_false h'

/-- Helper: trimming fixes a string whose ends are not whitespace. -/
theorem jsTrim_fixed {l : List Char}
    (hh : ∀ c, l.head? = some c → isJsWhitespace c = false)
    (hl : ∀ c, l.getLast? = some c → isJsWhitespace c = false) :
    jsTrim l = l := by
  unfold jsTrim trimRight trimLeft
  rw [dropWhile_eq_self_of_head hh]
  have h2 : ∀ c, l.reverse.head? = some c → isJsWhitespace c = false := by
    intro c hc
    rw [List.head?_reverse] at hc
    exact hl c hc
  rw [dropWhile_eq_self_of_head h2, List.reverse_reverse]

/-- Helper: JS trim is idempotent. -/
theorem jsTrim_idem (l : List Char) : jsTrim (jsTrim l) = jsTrim l :=
  jsTrim_fixed (fun _ h => jsTrim_head_false h) (fun _ h => jsTrim_getLast_false h)

/-- C10: every element of the stored choices array — the textarea input
split on commas, each piece trimmed, empty pieces dropped — is non-empty
and equals its own whitespace-trimmed form, and each arises from a comma
piece by removing only leading and trailing whitespace, so interior
spaces within a choice are preserved. -/
theorem parsedChoices_clean (value : List Char) :
    ∀ c ∈ parsedChoices value,
      c ≠ [] ∧ jsTrim c = c ∧
      ∃ piece ∈ splitComma value, ∃ p t,
        piece = p ++ c ++ t ∧
        (∀ a ∈ p, isJsWhitespace a = true) ∧
        (∀ a ∈ t, isJsWhitespace a = true) := by
  intro c hc
  unfold parsedChoices at hc
  have h1 := List.mem_filter.mp hc
  rcases List.mem_map.mp h1.1 with ⟨piece, hpiece, rfl⟩
  have hne : jsTrim piece ≠ [] := by
    intro h0
    have h2 := h1.2
    rw [h0] at h2
    simp at h2
  refine ⟨hne, jsTrim_idem piece, piece, hpiece,
    piece.takeWhile isJsWhitespace,
    ((trimLeft piece).reverse.takeWhile isJsWhitespace).reverse, ?_, ?_, ?_⟩
  · exact jsTrim_decomp piece
  · intro a ha
    exact List.mem_takeWhile_imp ha
  · intro a ha
    rw [List.mem_reverse] at ha
    exact List.mem_takeWhile_imp ha

/-- Witness for C10: a concrete stored choice keeps its interior spaces
and is already trimmed. -/
theorem parsedChoices_clean_witness :
    jsTrim "Stainless Steel (SS304)".data = "Stainless Steel (SS304)".data :=
  (parsedChoices_clean c10Value "Stainless Steel (SS304)".data (by decide)).2.1

/-- C3: the next question is determined by looking up
`transitions[normalizedAnswer]`; if that key is absent the engine falls
back to `transitions["default"]`; and if that is also absent, submitting
the answer succeeds with state Done — end of branch, not an error. -/
theorem traversal_transition_rule (q : Question) (norm : String) :
    (∀ t, q.transitions.lookup norm = some t → nextQuestionId q norm = some t) ∧
    (q.transitions.lookup norm = none →
      nextQuestionId q norm = q.transitions.lookup "default") ∧
    (∀ (g : QuestionGraph) (store : AnswerStore) (raw : String) (ts : Nat),
      validateAnswer q raw = .ok norm → nextQuestionId q norm = none →
      submitAnswer g q store raw ts =
        .ok (⟨store.entries ++ [⟨q.id, raw, norm, ts⟩]⟩, .done)) := by
  refine ⟨?_, ?_, ?_⟩
  · intro t h
    unfold nextQuestionId
    rw [h]
  · intro h
    unfold nextQuestionId
    rw [h]
  · intro g store raw ts hval hnext
    simp [submitAnswer, hval, hnext]

/-- Witness for C3: answering `"Tennis"` on a question whose only
transition is for `"Basketball"` (and which has no `"default"` key)
terminates the branch in Done, successfully. -/
theorem traversal_transition_rule_witness :
    submitAnswer c3Graph c3Question ⟨[]⟩ "Tennis" 0 =
      .ok (⟨[⟨"court_type", "Tennis", "Tennis", 0⟩]⟩, .done) :=
  (traversal_transition_rule c3Question "Tennis").2.2 c3Graph ⟨[]⟩ "Tennis" 0
    rfl (by decide)

/-- C6: submitting an answer that does not exactly equal one of a choice
question's choices yields ValidationError InvalidChoice, and no new store
is produced — the traversal state is unchanged. -/
theorem submitAnswer_invalid_choice (g : QuestionGraph) (q : Question)
    (store : AnswerStore) (raw : String) (ts : Nat)
    (hty : q.answerType = .choice) (hmem : raw ∉ q.choices) :
    submitAnswer g q store raw ts = .error .invalidChoice ∧
    ∀ ns st, submitAnswer g q store raw ts ≠ .ok (ns, st) := by
  have hval : validateAnswer q raw = .error .invalidChoice := by
    simp [validateAnswer, hty, hmem]
  refine ⟨?_, ?_⟩
  · simp [submitAnswer, hval]
  · intro ns st
    simp [submitAnswer, hval]

/-- Witness for C6: the spec scenario — `"Basketbal"` (misspelled)
against choices `["Basketball", "Tennis"]` is rejected as InvalidChoice. -/
theorem submitAnswer_invalid_choice_witness :
    submitAnswer c6Graph c6Question ⟨[]⟩ "Basketbal" 0 =
      .error .invalidChoice :=
  (submitAnswer_invalid_choice c6Graph c6Question ⟨[]⟩ "Basketbal" 0 rfl
    (by decide)).1

/-- C7: whenever following a transition would reach a question whose id
already appears in the session's AnswerStore, submitAnswer fails with the
hard validation error RevisitedQuestion instead of looping. -/
theorem submitAnswer_revisit_error (g : QuestionGraph) (q : Question)
    (store : AnswerStore) (raw norm nid : String) (ts : Nat)
    (hval : validateAnswer q raw = .ok norm)
    (hnext : nextQuestionId q norm = some nid)
    (hvisited : nid ∈ answeredIds store) :
    submitAnswer g q store raw ts = .error .revisitedQuestion := by
  have hmem : nid ∈ answeredIds ⟨store.entries ++ [⟨q.id, raw, norm, ts⟩]⟩ := by
    unfold answeredIds at hvisited ⊢
    simp only [List.map_append]
    exact List.mem_append_left _ hvisited
  simp [submitAnswer, hval, hnext, hmem]

/-- Witness for C7: re-reaching the already-answered `material` question
through the `"default"` transition is rejected as RevisitedQuestion. -/
theorem submitAnswer_revisit_error_witness :
    submitAnswer c7Graph c7Question c7Store "aluminum" 1 =
      .error .revisitedQuestion :=
  submitAnswer_revisit_error c7Graph c7Question c7Store "aluminum" "aluminum"
    "material" 1 rfl (by decide) (by decide)

/-- Helper: priceLe is transitive. -/
theorem priceLe_trans {x y z : PriceEntry} (h1 : priceLe x y) (h2 : priceLe y z) :
    priceLe x z := by
  rcases h1 with h1 | ⟨e1, d1⟩ <;> rcases h2 with h2 | ⟨e2, d2⟩
  · exact Or.inl (lt_trans h1 h2)
  · exact Or.inl (by rw [← e2]; exact h1)
  · exact Or.inl (by rw [e1]; exact h2)
  · exact Or.inr ⟨e1.trans e2, le_trans d1 d2⟩

/-- Helper: priceLe implies the unit-price inequality. -/
theorem priceLe_unitPrice {x y : PriceEntry} (h : priceLe x y) :
    x.unitPrice ≤ y.unitPrice := by
  rcases h with h | ⟨e, _⟩
  · exact le_of_lt h
  · exact le_of_eq e

/-- Helper: on an exact price tie, priceLe gives the ingestion-order
inequality. -/
theorem priceLe_tie {x y : PriceEntry} (h : priceLe x y)
    (he : x.unitPrice = y.unitPrice) : x.sourceDocumentId ≤ y.sourceDocumentId := by
  rcases h with h | ⟨_, d⟩
  · exact absurd (he ▸ h) (lt_irrefl _)
  · exact d

/-- Helper: the first argument never beats `preferEntry`. -/
theorem le_preferEntry_left (a b : PriceEntry) : priceLe a (preferEntry a b) := by
  unfold preferEntry
  split
  · rename_i h
    rcases h with h | ⟨e, d⟩
    · exact Or.inl h
    · exact Or.inr ⟨e, le_of_lt d⟩
  · exact Or.inr ⟨rfl, le_refl _⟩

/-- Helper: the second argument never beats `preferEntry`. -/
theorem le_preferEntry_right (a b : PriceEntry) : priceLe b (preferEntry a b) := by
  unfold preferEntry
  split
  · exact Or.inr ⟨rfl, le_refl _⟩
  · rename_i h
    push_neg at h
    rcases lt_or_eq_of_le h.1 with hlt | heq
    · exact Or.inl hlt
    · exact Or.inr ⟨heq, h.2 heq.symm⟩

/-- Helper: `preferEntry` returns one of its arguments. -/
theorem preferEntry_cases (a b : PriceEntry) :
    preferEntry a b = a ∨ preferEntry a b = b := by
  unfold preferEntry
  split
  · exact Or.inr rfl
  · exact Or.inl rfl

/-- Helper: folding `preferEntry` selects a member of the candidate list. -/
theorem foldl_preferEntry_mem :
    ∀ (l : List PriceEntry) (a : PriceEntry), l.foldl preferEntry a ∈ a :: l := by
  intro l
  induction l with
  | nil => intro a; simp
  | cons b t ih =>
    intro a
    rw [List.foldl_cons]
    have hmem := ih (preferEntry a b)
    rcases List.mem_cons.mp hmem with h2 | h2
    · rcases preferEntry_cases a b with h | h
      · rw [h2, h]; exact List.mem_cons_self _ _
      · rw [h2, h]; exact List.mem_cons_of_mem _ (List.mem_cons_self _ _)
    · exact List.mem_cons_of_mem _ (List.mem_cons_of_mem _ h2)

/-- Helper: the fold result is a priceLe upper bound of all candidates. -/
theorem foldl_preferEntry_ub :
    ∀ (l : List PriceEntry) (a x : PriceEntry),
      x ∈ a :: l → priceLe x (l.foldl preferEntry a) := by
  intro l
  induction l with
  | nil =>
    intro a x hx
    rcases List.mem_cons.mp hx with rfl | h
    · exact Or.inr ⟨rfl, le_refl _⟩
    · simp at h
  | cons b t ih =>
    intro a x hx
    rw [List.foldl_cons]
    have hstep : priceLe (preferEntry a b) (t.foldl preferEntry (preferEntry a b)) :=
      ih (preferEntry a b) _ (List.mem_cons_self _ _)
    rcases List.mem_cons.mp hx with rfl | hx2
    · exact priceLe_trans (le_preferEntry_left _ _) hstep
    · rcases List.mem_cons.mp hx2 with rfl | hx3
      · exact priceLe_trans (le_preferEntry_right _ _) hstep
      · exact ih (preferEntry a b) x (List.mem_cons_of_mem _ hx3)

/-- C1: QuoteBuilder.build on the empty candidate sequence fails with
NoPriceFound; on every non-empty sequence it selects (and builds the
quote from) an entry of the sequence whose unitPrice is maximal — it
never selects an entry whose unitPrice is below another entry's — and on
exact unitPrice ties the selected entry's sourceDocumentId ingestion is
the most recent, a deterministic secondary tie-break. -/
theorem build_selects_highest (finalizedAnswers : List (String × String))
    (quantity : ℚ) (catalogResults : List PriceEntry)
    (adjustments : List Adjustment) :
    (catalogResults = [] →
      QuoteBuilder.build finalizedAnswers quantity catalogResults adjustments =
        .error .noPriceFound) ∧
    (catalogResults ≠ [] → ∃ e,
      selectHighest catalogResults = some e ∧ e ∈ catalogResults ∧
      (∀ x ∈ catalogResults, x.unitPrice ≤ e.unitPrice ∧
        (x.unitPrice = e.unitPrice → x.sourceDocumentId ≤ e.sourceDocumentId)) ∧
      ∃ quote,
        QuoteBuilder.build finalizedAnswers quantity catalogResults adjustments =
          .ok quote ∧
        quote.itemName = e.itemName ∧ quote.basePrice = e.unitPrice * quantity ∧
        quote.sourceTrace = [e.sourceDocumentId]) := by
  constructor
  · intro h
    subst h
    rfl
  · intro h
    cases catalogResults with
    | nil => exact absurd rfl h
    | cons e0 rest =>
      refine ⟨rest.foldl preferEntry e0, rfl, foldl_preferEntry_mem rest e0, ?_, ?_⟩
      · intro x hx
        have hle := foldl_preferEntry_ub rest e0 x hx
        exact ⟨priceLe_unitPrice hle, priceLe_tie hle⟩
      · exact ⟨_, rfl, rfl, rfl, rfl⟩

/-- Witness for C1: the empty catalog fails with NoPriceFound, and of the
spec's 1200-versus-1350 pair the selected entry is the 1350 one. -/
theorem build_selects_highest_witness :
    QuoteBuilder.build [] 20 [] [] = Except.error CatalogError.noPriceFound ∧
    selectHighest c1Entries = some ⟨"court resurfacing", 1350, "sqm", [], 2⟩ :=
  ⟨(build_selects_highest [] 20 [] []).1 rfl, by decide⟩

/-- Helper: the pipeline recursion, on an adjustment list in which every
percentage adjustment is non-compounding, adds exactly the matched
contributions (computed against the original base price) to the running
total and appends them in declared order. -/
theorem applyGo_noncompounding (basePrice : ℚ) (answers : List (String × String)) :
    ∀ (adjustments : List Adjustment) (total : ℚ) (applied : List (String × ℚ)),
      (∀ a ∈ adjustments, a.kind = .percentageOfBase → a.compounding = false) →
      applyGo basePrice answers total applied adjustments =
        (total + ((matchingAdjustments answers adjustments).map
            (contributionAt basePrice)).sum,
         applied ++ (matchingAdjustments answers adjustments).map
            (fun a => (a.description, contributionAt basePrice a))) := by
  intro adjustments
  induction adjustments with
  | nil =>
    intro total applied _
    simp [applyGo, matchingAdjustments]
  | cons a rest ih =>
    intro total applied h
    have ha := h a (List.mem_cons_self _ _)
    have hrest : ∀ b ∈ rest, b.kind = .percentageOfBase → b.compounding = false :=
      fun b hb => h b (List.mem_cons_of_mem _ hb)
    by_cases happ : a.appliesWhen answers
    · have hamount : adjustmentAmount basePrice total a = contributionAt basePrice a := by
        unfold adjustmentAmount contributionAt
        cases hk : a.kind with
        | fixedAmount => rfl
        | percentageOfBase => rw [ha hk]; simp
      rw [applyGo, if_pos happ, ih _ _ hrest, hamount]
      unfold matchingAdjustments
      rw [List.filter_cons_of_pos]
      · simp [add_assoc]
      · exact happ
    · rw [applyGo, if_neg happ, ih _ _ hrest]
      unfold matchingAdjustments
      rw [List.filter_cons_of_neg]
      simpa using happ

/-- C2: AdjustmentPipeline.apply starts the total at basePrice and, in
declared order, adds `value` for each matching fixedAmount adjustment and
`value/100 * basePrice` — against the original base price — for each
matching non-compounding (the default) percentageOfBase adjustment; and
on the spec scenario (unit price 1200 per square meter, quantity 20, one
matching +15% adjustment) the base price is 24000, the adjustment amount
3600, and the total 27600. -/
theorem adjustmentPipeline_apply_spec :
    (∀ (basePrice : ℚ) (answers : List (String × String))
        (adjustments : List Adjustment),
      (∀ a ∈ adjustments, a.kind = .percentageOfBase → a.compounding = false) →
      AdjustmentPipeline.apply basePrice answers adjustments =
        (basePrice + ((matchingAdjustments answers adjustments).map
            (contributionAt basePrice)).sum,
         (matchingAdjustments answers adjustments).map
            (fun a => (a.description, contributionAt basePrice a)))) ∧
    ((1200 : ℚ) * 20 = 24000 ∧
     AdjustmentPipeline.apply (1200 * 20) scenarioAnswers [oilVarnishAdjustment] =
       (27600, [("oil-based varnish", 3600)])) := by
  constructor
  · intro basePrice answers adjustments h
    unfold AdjustmentPipeline.apply
    rw [applyGo_noncompounding basePrice answers adjustments basePrice [] h]
    simp
  · constructor
    · norm_num
    · norm_num [AdjustmentPipeline.apply, applyGo, adjustmentAmount,
        oilVarnishAdjustment, scenarioAnswers]

/-- Witness for C2: the general characterization applied to the concrete
scenario input, its hypothesis discharged there. -/
theorem adjustmentPipeline_apply_spec_witness :
    AdjustmentPipeline.apply 24000 scenarioAnswers [oilVarnishAdjustment] =
      (27600, [("oil-based varnish", 3600)]) := by
  have h := adjustmentPipeline_apply_spec.1 24000 scenarioAnswers
    [oilVarnishAdjustment] (by
      intro a ha hk
      rcases List.mem_singleton.mp ha with rfl
      rfl)
  rw [h]
  norm_num [matchingAdjustments, contributionAt, oilVarnishAdjustment,
    scenarioAnswers]

/-- C8: AdjustmentPipeline.apply is deterministic — two runs on equal
base price, equal answers and an equal adjustment list produce identical
outputs (total and appliedAdjustments); in this pure embedding the output
is a function of exactly these three inputs and nothing else. -/
theorem adjustmentPipeline_deterministic
    (b₁ b₂ : ℚ) (ans₁ ans₂ : List (String × String)) (l₁ l₂ : List Adjustment)
    (hb : b₁ = b₂) (ha : ans₁ = ans₂) (hl : l₁ = l₂) :
    AdjustmentPipeline.apply b₁ ans₁ l₁ = AdjustmentPipeline.apply b₂ ans₂ l₂ := by
  subst hb
  subst ha
  subst hl
  rfl

/-- Witness for C8: two runs on the concrete scenario input coincide. -/
theorem adjustmentPipeline_deterministic_witness :
    AdjustmentPipeline.apply 24000 scenarioAnswers [oilVarnishAdjustment] =
      AdjustmentPipeline.apply 24000 scenarioAnswers [oilVarnishAdjustment] :=
  adjustmentPipeline_deterministic 24000 24000 scenarioAnswers scenarioAnswers
    [oilVarnishAdjustment] [oilVarnishAdjustment] rfl rfl rfl

end EzzoSales
